import Mathlib

/-!
Shallow embedding of the outage detection and compliance analysis engine of
`src/data_analyzer.py` (class `PilotDataAnalyzer`).

Modelling conventions:
* Timestamps (`pd.Timestamp` values) are rational numbers of minutes since an
  arbitrary epoch, so `(t2 - t1).total_seconds() / 60` is simply `t2 - t1`.
* Python floats are modelled as rationals; the one genuinely irrational
  computation (`np.std`, a square root) is modelled with `Real.sqrt`.
* A pandas `DataFrame` is a list of column names plus a list of rows; the two
  columns the engine reads (`Time`, `Message`) are the fields of `Row`.
* Python dictionaries with an optional key (the outage records, whose
  ongoing key is present only on the final artificially closed interval)
  are records with an `Option` field: `none` models an absent key.
* The body of `calculate_availability` is wrapped in `try/except` and
  returns `0.0` when the division by a zero-length window raises
  `ZeroDivisionError`; that handler is modelled by an explicit zero test.
-/

namespace PilotMonitoring

/-- One row of the Uplink event table: the `Time` and `Message` cells. -/
structure Row where
  time : ℚ
  message : String
deriving DecidableEq

/-- An outage record as built by `identify_outages`.  The source builds a
Python dict with keys `start`, `end`, `duration`, `duration_minutes`, and —
only for the final unterminated interval — `ongoing`.  `end` is a Lean
keyword, so the field is called `stop`; the redundant `duration` key (a
timedelta equal to `duration_minutes` minutes) is not repeated.  `ongoing`
is `none` when the dict has no such key. -/
structure Outage where
  start : ℚ
  stop : ℚ
  duration_minutes : ℚ
  ongoing : Option Bool
deriving DecidableEq

/-- Python `pat in s` substring test: does `pat` occur, contiguously, in `s`?
`charsPrefixOf pat s` checks that `pat` is an initial segment of `s`. -/
def charsPrefixOf : List Char → List Char → Bool
  | [], _ => true
  | _ :: _, [] => false
  | a :: as, b :: bs => a == b && charsPrefixOf as bs

/-- Substring occurrence on character lists (Python `pat in s`). -/
def charsContains (pat : List Char) : List Char → Bool
  | [] => charsPrefixOf pat []
  | c :: rest => charsPrefixOf pat (c :: rest) || charsContains pat rest

/-- Python `pat in s` on strings. -/
def strContains (s pat : String) : Bool :=
  charsContains pat.data s.data

/-- Python `str.strip()`: remove leading and trailing whitespace. -/
def pyStrip (s : String) : String :=
  ⟨(((s.data.dropWhile Char.isWhitespace).reverse.dropWhile Char.isWhitespace).reverse)⟩

/-- The loop state of `identify_outages`: the accumulator list and the two
loop variables `in_outage` and `outage_start` (initially `None`). -/
structure ScanState where
  outages : List Outage
  in_outage : Bool
  outage_start : Option ℚ
deriving DecidableEq

/-- Loop state before the first row: `outages = []`, `in_outage = False`,
`outage_start = None`. -/
def initState : ScanState :=
  { outages := [], in_outage := false, outage_start := none }

/-- The body of the `for idx, row in df.iterrows()` loop of
`identify_outages` (src/data_analyzer.py lines 92-120). -/
def stepRow (st : ScanState) (row : Row) : ScanState :=
  let message := pyStrip row.message
  let timestamp := row.time
  if strContains message ("Pilot Inactive") then
    -- start of outage, unless one is already open
    if st.in_outage then st
    else { st with in_outage := true, outage_start := some timestamp }
  else if strContains message ("Pilot Active") then
    -- end of outage, if one is open
    if st.in_outage then
      match st.outage_start with
      | some s =>
          { st with
              in_outage := false,
              outages := st.outages ++
                [{ start := s, stop := timestamp,
                   duration_minutes := timestamp - s, ongoing := none }] }
      | none => st  -- unreachable: in_outage is set only together with outage_start
    else st
  else st

/-- The loop state after scanning all rows. -/
def scanState (rows : List Row) : ScanState :=
  rows.foldl stepRow initState

/-- Model of `identify_outages` (src/data_analyzer.py lines 74-138): the scan loop
followed by the end-of-stream finalization `if in_outage and outage_start:`,
whose `end` is `df[time_col].iloc[-1]`, the last row of the input frame. -/
def identify_outages (rows : List Row) : List Outage :=
  let st := scanState rows
  if st.in_outage then
    match st.outage_start, rows.getLast? with
    | some s, some lastRow =>
        st.outages ++
          [{ start := s, stop := lastRow.time,
             duration_minutes := lastRow.time - s, ongoing := some true }]
    | _, _ => st.outages
  else st.outages

/-- The `month_data` dict: the inclusive bounds of the reporting window. -/
structure MonthData where
  first_day : ℚ
  last_day : ℚ
deriving DecidableEq

/-- Model of `calculate_availability` (src/data_analyzer.py lines 140-167).
The `df` argument is accepted but never used by the source.  When the window
has zero length the division raises `ZeroDivisionError`, which the handler
inside the same function turns into a return value of `0.0`. -/
def calculate_availability (df : List Row) (outages : List Outage)
    (month_data : MonthData) : ℚ :=
  let _ := df
  let total_minutes := month_data.last_day - month_data.first_day
  let total_outage_minutes := (outages.map Outage.duration_minutes).sum
  if total_minutes = 0 then 0
  else ((total_minutes - total_outage_minutes) / total_minutes) * 100

/-- EPA threshold: `self.MAX_OUTAGES_PER_MONTH = 10`. -/
def MAX_OUTAGES_PER_MONTH : ℕ := 10

/-- EPA threshold: `self.MAX_OUTAGE_DURATION_MINUTES = 60`. -/
def MAX_OUTAGE_DURATION_MINUTES : ℚ := 60

/-- EPA threshold: `self.MIN_AVAILABILITY_PERCENT = 99.0`. -/
def MIN_AVAILABILITY_PERCENT : ℚ := 99

/-- One entry of the `compliance_issues` list.  The source appends formatted
strings; the constructor payloads carry exactly the data interpolated into
each format string (float rendering is presentation, not logic). -/
inductive ComplianceIssue where
  | exceededMaxOutages (count : ℕ)
  | longOutages (count : ℕ)
  | lowAvailability (availability : ℚ)
deriving DecidableEq

/-- The dict returned by `check_epa_compliance`. -/
structure ComplianceResult where
  compliant : Bool
  status : String
  issues : List ComplianceIssue
deriving DecidableEq

/-- Model of `check_epa_compliance` (src/data_analyzer.py lines 169-211): three
independent threshold checks, each appending to `compliance_issues`. -/
def check_epa_compliance (outages : List Outage)
    (availability_percent : ℚ) : ComplianceResult :=
  let compliance_issues : List ComplianceIssue := []
  let compliance_issues :=
    if MAX_OUTAGES_PER_MONTH < outages.length then
      compliance_issues ++ [ComplianceIssue.exceededMaxOutages outages.length]
    else compliance_issues
  let long_outages :=
    outages.filter fun o => decide (MAX_OUTAGE_DURATION_MINUTES < o.duration_minutes)
  let compliance_issues :=
    if long_outages.isEmpty then compliance_issues
    else compliance_issues ++ [ComplianceIssue.longOutages long_outages.length]
  let compliance_issues :=
    if availability_percent < MIN_AVAILABILITY_PERCENT then
      compliance_issues ++ [ComplianceIssue.lowAvailability availability_percent]
    else compliance_issues
  let is_compliant := compliance_issues.length == 0
  { compliant := is_compliant,
    status := if is_compliant then ("COMPLIANT") else ("NON-COMPLIANT"),
    issues := compliance_issues }

/-- Ascending insertion of a duration into a sorted list (helper for the
`np.median` model). -/
def insertAsc (x : ℚ) : List ℚ → List ℚ
  | [] => [x]
  | y :: ys => if x ≤ y then x :: y :: ys else y :: insertAsc x ys

/-- Ascending sort of the duration list (helper for the `np.median` model). -/
def sortAsc (l : List ℚ) : List ℚ :=
  l.foldr insertAsc []

/-- Model of `np.mean`: arithmetic mean (0 on the empty list, unused there). -/
def npMean (l : List ℚ) : ℚ :=
  l.sum / l.length

/-- Model of `np.median`: middle element of the sorted list, or the average of the two
middle elements when the length is even. -/
def npMedian (l : List ℚ) : ℚ :=
  let s := sortAsc l
  let n := s.length
  if n % 2 = 1 then s.getD (n / 2) 0
  else (s.getD (n / 2 - 1) 0 + s.getD (n / 2) 0) / 2

/-- Model of `np.max` on a duration list. -/
def npMax : List ℚ → ℚ
  | [] => 0
  | x :: xs => xs.foldl max x

/-- Model of `np.min` on a duration list. -/
def npMin : List ℚ → ℚ
  | [] => 0
  | x :: xs => xs.foldl min x

/-- Model of `np.std`: population standard deviation, the square root of the mean
squared deviation from the mean. -/
noncomputable def npStd (l : List ℚ) : ℝ :=
  Real.sqrt (((l.map fun d => (d - npMean l) ^ 2).sum : ℚ) / l.length)

/-- The statistics dict of `calculate_statistics`.  All fields are exact
rationals except the standard deviation, whose square root is irrational in
general. -/
structure Statistics where
  mean_duration_minutes : ℚ
  median_duration_minutes : ℚ
  max_duration_minutes : ℚ
  min_duration_minutes : ℚ
  std_duration_minutes : ℝ

/-- Model of `calculate_statistics` (src/data_analyzer.py lines 213-240): all five
statistics are literally `0` when the outage list is empty. -/
noncomputable def calculate_statistics (outages : List Outage) : Statistics :=
  if outages.isEmpty then
    { mean_duration_minutes := 0, median_duration_minutes := 0,
      max_duration_minutes := 0, min_duration_minutes := 0,
      std_duration_minutes := 0 }
  else
    let durations := outages.map Outage.duration_minutes
    { mean_duration_minutes := npMean durations,
      median_duration_minutes := npMedian durations,
      max_duration_minutes := npMax durations,
      min_duration_minutes := npMin durations,
      std_duration_minutes := npStd durations }

/-- The input table: the column names of the frame, plus its rows (the
`Time` and `Message` cells each row carries; their values are meaningful
only when the corresponding column exists). -/
structure Table where
  columns : List String
  rows : List Row

/-- The `summary` dict assembled by `analyze_data`. -/
structure Summary where
  total_outages : ℕ
  total_outage_minutes : ℚ
  availability_percent : ℚ
  epa_compliance : String
  compliance_details : ComplianceResult
  statistics : Statistics

/-- The result dict of `analyze_data`: either the success dict with its
data, outages and summary entries, or the failure dict with its error
message.  The `device` and `month_data` passthrough entries of the success
dict carry no analysis content and are not repeated here. -/
inductive AnalysisResult where
  | success (data : List Row) (outages : List Outage) (summary : Summary)
  | failure (error : String)

/-- Python truthiness of the success key. -/
def AnalysisResult.isSuccess : AnalysisResult → Bool
  | .success _ _ _ => true
  | .failure _ => false

/-- The `availability_percent` entry of a successful summary. -/
def availabilityOf : AnalysisResult → Option ℚ
  | .success _ _ s => some s.availability_percent
  | .failure _ => none

/-- The single-quote character, as the Python `repr` prints around strings. -/
def sq : String :=
  String.mk [Char.ofNat 39]

/-- Python `repr` of a string (the column names seen here need no escaping). -/
def pyStrRepr (s : String) : String :=
  sq ++ s ++ sq

/-- Comma-joined `repr`s of the members of a list (helper for `pyListRepr`). -/
def pyReprJoin : List String → String
  | [] => ""
  | [x] => pyStrRepr x
  | x :: y :: xs => pyStrRepr x ++ (", ") ++ pyReprJoin (y :: xs)

/-- Python `repr` of a list of strings, as interpolated into the error
message on line 273 of src/data_analyzer.py. -/
def pyListRepr (xs : List String) : String :=
  ("[") ++ pyReprJoin xs ++ ("]")

/-- The error message built when a required column is missing
(src/data_analyzer.py line 273). -/
def requiredColumnsError (columns : List String) : String :=
  ("Required columns not found. Expected \"Time\" and \"Message\", got: ")
    ++ pyListRepr columns

/-- Insertion of a row into a list sorted ascending by `Time` (helper for
the model of the sort_values call). -/
def insertRowAsc (x : Row) : List Row → List Row
  | [] => [x]
  | y :: ys => if x.time ≤ y.time then x :: y :: ys else y :: insertRowAsc x ys

/-- The normalization phase of `analyze_data`: sort by `Time` (the
sort_values call on line 280), then restrict to the inclusive window (the
filter on lines 284-287, comparing `Time` against `first_day` and
`last_day` inclusively on both ends).  The default pandas sort is
quicksort, whose ordering of equal keys is unspecified; it is modelled here
by a stable insertion sort, which realizes one admissible outcome. -/
def normalizedRows (tbl : Table) (month_data : MonthData) : List Row :=
  let sorted := tbl.rows.foldr insertRowAsc []
  sorted.filter fun r =>
    decide (month_data.first_day ≤ r.time) && decide (r.time ≤ month_data.last_day)

/-- Model of `analyze_data` (src/data_analyzer.py lines 242-344), from the point where
the table is already loaded: the column check, normalization (timestamp
parsing is the identity on already-parsed instants), outage identification,
availability, compliance, statistics, and the summary dict.  The
`pilot_messages` sub-frame computed on line 292 only feeds a diagnostic
print and does not influence the result. -/
noncomputable def analyze_data (tbl : Table) (month_data : MonthData) : AnalysisResult :=
  if ("Time") ∉ tbl.columns ∨ ("Message") ∉ tbl.columns then
    .failure (requiredColumnsError tbl.columns)
  else
    let df := normalizedRows tbl month_data
    let outages := identify_outages df
    let availability_percent := calculate_availability df outages month_data
    let compliance := check_epa_compliance outages availability_percent
    let stats := calculate_statistics outages
    .success df outages
      { total_outages := outages.length,
        total_outage_minutes := (outages.map Outage.duration_minutes).sum,
        availability_percent := availability_percent,
        epa_compliance := compliance.status,
        compliance_details := compliance,
        statistics := stats }

/-! ## Helper lemmas about the substring test -/

theorem charsPrefixOf_self_append (p rest : List Char) :
    charsPrefixOf p (p ++ rest) = true := by
  induction p with
  | nil => simp [charsPrefixOf]
  | cons a as ih => simp [charsPrefixOf, ih]

theorem charsPrefixOf_extend (p s t : List Char)
    (h : charsPrefixOf p s = true) : charsPrefixOf p (s ++ t) = true := by
  induction p generalizing s with
  | nil => simp [charsPrefixOf]
  | cons a as ih =>
    cases s with
    | nil => simp [charsPrefixOf] at h
    | cons b bs =>
      simp only [charsPrefixOf, Bool.and_eq_true] at h ⊢
      exact ⟨h.1, ih bs h.2⟩

theorem charsContains_self_append (p rest : List Char) :
    charsContains p (p ++ rest) = true := by
  cases p with
  | nil =>
    cases rest with
    | nil => simp [charsContains, charsPrefixOf]
    | cons c cs => simp [charsContains, charsPrefixOf]
  | cons a as =>
    simp only [List.cons_append, charsContains, Bool.or_eq_true]
    exact Or.inl (charsPrefixOf_self_append (a :: as) rest)

theorem charsContains_append_left (pre pat s : List Char)
    (h : charsContains pat s = true) : charsContains pat (pre ++ s) = true := by
  induction pre with
  | nil => simpa using h
  | cons c cs ih =>
    simp only [List.cons_append, charsContains, Bool.or_eq_true]
    exact Or.inr ih

theorem charsContains_append_right (pat s t : List Char)
    (h : charsContains pat s = true) : charsContains pat (s ++ t) = true := by
  induction s with
  | nil =>
    cases pat with
    | nil =>
      cases t with
      | nil => simpa using h
      | cons c cs => simp [charsContains, charsPrefixOf]
    | cons a as => simp [charsContains, charsPrefixOf] at h
  | cons c cs ih =>
    simp only [charsContains, Bool.or_eq_true] at h
    simp only [List.cons_append, charsContains, Bool.or_eq_true]
    rcases h with h | h
    · exact Or.inl (charsPrefixOf_extend _ _ _ h)
    · exact Or.inr (ih h)

theorem charsContains_infix (pre pat post : List Char) :
    charsContains pat (pre ++ pat ++ post) = true := by
  have h : charsContains pat (pat ++ post) = true := charsContains_self_append pat post
  have h2 := charsContains_append_left pre pat (pat ++ post) h
  simpa [List.append_assoc] using h2

/-! ## Structural facts about `identify_outages` -/

/-- Preservation of a state predicate along the scan loop. -/
theorem foldl_stepRow_preserve (P : ScanState → Prop)
    (hstep : ∀ st r, P st → P (stepRow st r)) :
    ∀ (rows : List Row) (st : ScanState), P st → P (rows.foldl stepRow st)
  | [], _, h => h
  | r :: rs, st, h =>
    foldl_stepRow_preserve P hstep rs (stepRow st r) (hstep st r h)

/-- Every outage appended by the scan loop itself has no `ongoing` key. -/
theorem scan_outages_ongoing_none (rows : List Row) :
    ∀ o ∈ (scanState rows).outages, o.ongoing = none := by
  have h := foldl_stepRow_preserve (fun st => ∀ o ∈ st.outages, o.ongoing = none)
    (fun st r hst => by
      simp only [stepRow]
      split_ifs with h1 h2 h3 h4 <;> try exact hst
      cases hso : st.outage_start with
      | none => exact hst
      | some s =>
        simp only
        intro o ho
        rcases List.mem_append.mp ho with ho | ho
        · exact hst o ho
        · simp only [List.mem_singleton] at ho
          subst ho
          rfl) rows initState (by intro o ho; simp [initState] at ho)
  exact h

/-- The scan loop sets `outage_start` whenever it sets `in_outage`. -/
theorem scan_in_outage_isSome (rows : List Row) :
    (scanState rows).in_outage = true → ((scanState rows).outage_start).isSome = true := by
  have h := foldl_stepRow_preserve
    (fun st => st.in_outage = true → (st.outage_start).isSome = true)
    (fun st r hst => by
      simp only [stepRow]
      split_ifs with h1 h2 h3 h4 <;> try exact hst
      · intro _; rfl
      · cases hso : st.outage_start with
        | none => exact hst
        | some s => intro _; rfl) rows initState (by intro h; simp [initState] at h)
  exact h

/-- `identify_outages` is the scanned outage list, possibly extended with one
final interval ending at the last row. -/
theorem identify_outages_eq (rows : List Row) :
    identify_outages rows = (scanState rows).outages
    ∨ ∃ s lastRow, (scanState rows).in_outage = true
        ∧ (scanState rows).outage_start = some s
        ∧ rows.getLast? = some lastRow
        ∧ identify_outages rows = (scanState rows).outages
            ++ [{ start := s, stop := lastRow.time,
                  duration_minutes := lastRow.time - s, ongoing := some true }] := by
  unfold identify_outages
  by_cases hio : (scanState rows).in_outage = true
  · cases hso : (scanState rows).outage_start with
    | none => simp [hio, hso]
    | some s =>
      cases hlast : rows.getLast? with
      | none => simp [hio, hso, hlast]
      | some lastRow =>
        refine Or.inr ⟨s, lastRow, hio, rfl, rfl, ?_⟩
        simp [hio, hso, hlast]
  · simp only [Bool.not_eq_true] at hio
    simp [hio]

/-! ## The interval invariants of the scan -/

/-- The accumulated outage list is well-formed: durations are `stop - start`
with `start ≤ stop`, and consecutive intervals are separated. -/
def GoodAcc (os : List Outage) : Prop :=
  (∀ o ∈ os, o.duration_minutes = o.stop - o.start ∧ o.start ≤ o.stop)
  ∧ os.Pairwise fun a b => a.stop ≤ b.start

/-- Scan invariant relative to the rows still to be processed. -/
def ScanPre (st : ScanState) (rows : List Row) : Prop :=
  GoodAcc st.outages
  ∧ (st.in_outage = true → ∃ s, st.outage_start = some s
      ∧ (∀ o ∈ st.outages, o.stop ≤ s) ∧ ∀ r ∈ rows, s ≤ r.time)
  ∧ ∀ o ∈ st.outages, ∀ r ∈ rows, o.stop ≤ r.time

/-- What holds of the final scan state, relative to the full row list. -/
def ScanPost (rows : List Row) (st : ScanState) : Prop :=
  GoodAcc st.outages
  ∧ (st.in_outage = true → ∃ s, st.outage_start = some s
      ∧ (∀ o ∈ st.outages, o.stop ≤ s)
      ∧ ∀ lastRow, rows.getLast? = some lastRow → s ≤ lastRow.time)

theorem stepRow_pre (st : ScanState) (r : Row) (rs : List Row)
    (hr : ∀ x ∈ rs, r.time ≤ x.time)
    (hpre : ScanPre st (r :: rs)) :
    ScanPre (stepRow st r) rs
    ∧ ((stepRow st r).in_outage = true →
        ∃ s, (stepRow st r).outage_start = some s ∧ s ≤ r.time) := by
  obtain ⟨⟨hdur, hpw⟩, hpend, hbound⟩ := hpre
  simp only [stepRow]
  split_ifs with h1 h2 h3 h4
  · -- duplicate "Pilot Inactive" while already in an outage: state unchanged
    obtain ⟨s, hs, hstops, hall⟩ := hpend h2
    exact ⟨⟨⟨hdur, hpw⟩,
      fun _ => ⟨s, hs, hstops, fun x hx => hall x (List.mem_cons_of_mem r hx)⟩,
      fun o ho x hx => hbound o ho x (List.mem_cons_of_mem r hx)⟩,
      fun _ => ⟨s, hs, hall r (List.mem_cons_self r rs)⟩⟩
  · -- an inactive message opens an outage at the timestamp of this row
    refine ⟨⟨⟨hdur, hpw⟩, fun _ => ⟨r.time, rfl, ?_, hr⟩,
      fun o ho x hx => hbound o ho x (List.mem_cons_of_mem r hx)⟩,
      fun _ => ⟨r.time, rfl, le_refl r.time⟩⟩
    exact fun o ho => hbound o ho r (List.mem_cons_self r rs)
  · -- "Pilot Active" closes the open outage
    obtain ⟨s, hs, hstops, hall⟩ := hpend h4
    cases hso : st.outage_start with
    | none => rw [hso] at hs; exact absurd hs (by simp)
    | some s0 =>
      rw [hso] at hs
      injection hs with hs0
      subst hs0
      constructor
      · refine ⟨⟨?_, ?_⟩, by simp, ?_⟩
        · intro o ho
          rcases List.mem_append.mp ho with ho | ho
          · exact hdur o ho
          · simp only [List.mem_singleton] at ho
            subst ho
            exact ⟨rfl, hall r (List.mem_cons_self r rs)⟩
        · refine List.pairwise_append.mpr ⟨hpw, List.pairwise_singleton _ _, ?_⟩
          intro a ha b hb
          simp only [List.mem_singleton] at hb
          subst hb
          exact hstops a ha
        · intro o ho x hx
          rcases List.mem_append.mp ho with ho | ho
          · exact hbound o ho x (List.mem_cons_of_mem r hx)
          · simp only [List.mem_singleton] at ho
            subst ho
            exact hr x hx
      · simp
  · -- "Pilot Active" with no open outage: a no-op
    refine ⟨⟨⟨hdur, hpw⟩, fun hio => ?_,
      fun o ho x hx => hbound o ho x (List.mem_cons_of_mem r hx)⟩, fun hio => ?_⟩
    · rw [hio] at h4; exact absurd rfl h4
    · rw [hio] at h4; exact absurd rfl h4
  · -- a message that is neither indicator: a no-op
    refine ⟨⟨⟨hdur, hpw⟩, fun hio => ?_,
      fun o ho x hx => hbound o ho x (List.mem_cons_of_mem r hx)⟩, fun hio => ?_⟩
    · obtain ⟨s, hs, hstops, hall⟩ := hpend hio
      exact ⟨s, hs, hstops, fun x hx => hall x (List.mem_cons_of_mem r hx)⟩
    · obtain ⟨s, hs, _, hall⟩ := hpend hio
      exact ⟨s, hs, hall r (List.mem_cons_self r rs)⟩

theorem scan_post : ∀ (rows : List Row) (st : ScanState),
    rows.Pairwise (fun a b => a.time ≤ b.time) →
    ScanPre st rows →
    ScanPost rows (rows.foldl stepRow st) := by
  intro rows
  induction rows with
  | nil =>
    intro st _ hpre
    obtain ⟨hgood, hpend, _⟩ := hpre
    refine ⟨hgood, fun hio => ?_⟩
    obtain ⟨s, hs, hstops, _⟩ := hpend hio
    exact ⟨s, hs, hstops, fun lastRow hlast => by simp at hlast⟩
  | cons r rs ih =>
    intro st hsorted hpre
    obtain ⟨hr, hrs⟩ := List.pairwise_cons.mp hsorted
    obtain ⟨hpre1, hlast1⟩ := stepRow_pre st r rs hr hpre
    have hpost := ih (stepRow st r) hrs hpre1
    obtain ⟨hgood, hpend⟩ := hpost
    refine ⟨hgood, fun hio => ?_⟩
    obtain ⟨s, hs, hstops, hlastrs⟩ := hpend hio
    refine ⟨s, hs, hstops, fun lastRow hlast => ?_⟩
    cases rs with
    | nil =>
      simp only [List.foldl_cons, List.foldl_nil] at hio hs
      obtain ⟨s2, hs2, hs2le⟩ := hlast1 hio
      rw [hs2] at hs
      injection hs with hss
      subst hss
      simp only [List.getLast?_singleton, Option.some.injEq] at hlast
      subst hlast
      exact hs2le
    | cons x xs =>
      rw [List.getLast?_cons_cons] at hlast
      exact hlastrs lastRow hlast

/-! ## The claims -/

/-- Claim C1: for every window with `first_day ≤ last_day` and every outage
list, `calculate_availability` returns
`((window_total_minutes - sum of outage durations) / window_total_minutes) * 100`,
where `window_total_minutes` is the wall-clock span `last_day - first_day` in
minutes; the result is independent of the rows of the table (the `df`
argument). -/
theorem calculate_availability_formula (df df2 : List Row) (outages : List Outage)
    (month_data : MonthData)
    (h : month_data.first_day ≤ month_data.last_day) :
    calculate_availability df outages month_data
      = ((month_data.last_day - month_data.first_day)
          - (outages.map Outage.duration_minutes).sum)
        / (month_data.last_day - month_data.first_day) * 100
    ∧ calculate_availability df outages month_data
      = calculate_availability df2 outages month_data := by
  refine ⟨?_, rfl⟩
  simp only [calculate_availability]
  by_cases hz : month_data.last_day - month_data.first_day = 0
  · rw [if_pos hz, hz]
    simp
  · rw [if_neg hz]

/-- Witness for C1 at a 100-minute window with one 10-minute outage. -/
theorem calculate_availability_formula_witness :
    calculate_availability [] [⟨0, 10, 10, none⟩] ⟨0, 100⟩
      = (((100 : ℚ) - 0)
          - (List.map Outage.duration_minutes [⟨0, 10, 10, none⟩]).sum)
        / (100 - 0) * 100
    ∧ calculate_availability [] [⟨0, 10, 10, none⟩] ⟨0, 100⟩
      = calculate_availability [⟨1, "boot"⟩] [⟨0, 10, 10, none⟩] ⟨0, 100⟩ := by
  have h := calculate_availability_formula [] [⟨1, ("boot")⟩] [⟨0, 10, 10, none⟩]
    ⟨0, 100⟩ (by decide)
  exact h

/-- Claim C2: on an event sequence sorted ascending by timestamp, the
intervals returned by `identify_outages` have `duration = stop - start ≥ 0`,
are pairwise non-overlapping (each ends no later than the next starts), and
are sorted ascending by start. -/
theorem identify_outages_interval_invariants (rows : List Row)
    (hsorted : rows.Pairwise fun a b => a.time ≤ b.time) :
    (∀ o ∈ identify_outages rows,
      o.duration_minutes = o.stop - o.start ∧ 0 ≤ o.duration_minutes)
    ∧ (identify_outages rows).Pairwise (fun a b => a.stop ≤ b.start)
    ∧ (identify_outages rows).Pairwise (fun a b => a.start ≤ b.start) := by
  have hpre : ScanPre initState rows := by
    refine ⟨⟨?_, ?_⟩, ?_, ?_⟩ <;> simp [initState, GoodAcc]
  obtain ⟨⟨hdur, hpw⟩, hpend⟩ := scan_post rows initState hsorted hpre
  have hsc : List.foldl stepRow initState rows = scanState rows := rfl
  rw [hsc] at hdur hpw hpend
  have mk : ∀ (l : List Outage),
      (∀ o ∈ l, o.duration_minutes = o.stop - o.start ∧ o.start ≤ o.stop) →
      l.Pairwise (fun a b => a.stop ≤ b.start) →
      (∀ o ∈ l, o.duration_minutes = o.stop - o.start ∧ 0 ≤ o.duration_minutes)
      ∧ l.Pairwise (fun a b => a.stop ≤ b.start)
      ∧ l.Pairwise (fun a b => a.start ≤ b.start) := by
    intro l hd hp
    refine ⟨fun o ho => ⟨(hd o ho).1, ?_⟩, hp, ?_⟩
    · rw [(hd o ho).1]
      exact sub_nonneg.mpr (hd o ho).2
    · exact hp.imp_of_mem fun {a b} ha _ hab => le_trans (hd a ha).2 hab
  rcases identify_outages_eq rows with heq | ⟨s, lastRow, hio, hstart, hlast, heq⟩
  · rw [heq]
    exact mk _ hdur hpw
  · obtain ⟨s2, hs2, hstops, hlastle⟩ := hpend hio
    rw [hstart] at hs2
    injection hs2 with hss
    subst hss
    rw [heq]
    apply mk
    · intro o ho
      rcases List.mem_append.mp ho with ho | ho
      · exact hdur o ho
      · simp only [List.mem_singleton] at ho
        subst ho
        exact ⟨rfl, hlastle lastRow hlast⟩
    · refine List.pairwise_append.mpr ⟨hpw, List.pairwise_singleton _ _, ?_⟩
      intro a ha b hb
      simp only [List.mem_singleton] at hb
      subst hb
      exact hstops a ha

/-- A small sorted event stream with a closed and an unterminated outage. -/
def rowsW2 : List Row :=
  [⟨0, "Pilot Inactive"⟩, ⟨10, "Pilot Active"⟩, ⟨20, "Pilot Inactive"⟩, ⟨25, "heartbeat"⟩]

/-- Witness for C2 on `rowsW2`. -/
theorem identify_outages_interval_invariants_witness :
    (∀ o ∈ identify_outages rowsW2,
      o.duration_minutes = o.stop - o.start ∧ 0 ≤ o.duration_minutes)
    ∧ (identify_outages rowsW2).Pairwise (fun a b => a.stop ≤ b.start)
    ∧ (identify_outages rowsW2).Pairwise (fun a b => a.start ≤ b.start) :=
  identify_outages_interval_invariants rowsW2 (by decide)

/-- Claim C3: if the rows are non-empty and the scan ends in the inactive
state, `identify_outages` appends exactly one final interval, ending at the
timestamp of the last row, flagged ongoing (every loop-emitted interval carries
no `ongoing` key); on an empty row list no final interval is emitted. -/
theorem identify_outages_final_interval (rows : List Row) (hne : rows ≠ [])
    (hinactive : (scanState rows).in_outage = true) :
    (∃ s lastRow, rows.getLast? = some lastRow
      ∧ identify_outages rows = (scanState rows).outages
          ++ [{ start := s, stop := lastRow.time,
                duration_minutes := lastRow.time - s, ongoing := some true }]
      ∧ ∀ o ∈ (scanState rows).outages, o.ongoing = none)
    ∧ identify_outages ([] : List Row) = [] := by
  refine ⟨?_, rfl⟩
  obtain ⟨s, hs⟩ := Option.isSome_iff_exists.mp (scan_in_outage_isSome rows hinactive)
  obtain ⟨lastRow, hlast⟩ := Option.isSome_iff_exists.mp (List.getLast?_isSome.mpr hne)
  refine ⟨s, lastRow, hlast, ?_, scan_outages_ongoing_none rows⟩
  simp only [identify_outages, hinactive, if_true, hs, hlast]

/-- A stream whose scan ends inactive after a closed outage. -/
def rowsW3 : List Row :=
  [⟨0, "boot"⟩, ⟨2, "Pilot Inactive"⟩, ⟨7, "Pilot Active"⟩, ⟨9, "Pilot Inactive"⟩, ⟨12, "heartbeat"⟩]

/-- Witness for C3 on `rowsW3`. -/
theorem identify_outages_final_interval_witness :
    (∃ s lastRow, rowsW3.getLast? = some lastRow
      ∧ identify_outages rowsW3 = (scanState rowsW3).outages
          ++ [{ start := s, stop := lastRow.time,
                duration_minutes := lastRow.time - s, ongoing := some true }]
      ∧ ∀ o ∈ (scanState rowsW3).outages, o.ongoing = none)
    ∧ identify_outages ([] : List Row) = [] :=
  identify_outages_final_interval rowsW3 (by decide) (by decide)

/-- Claim C4: `check_epa_compliance` evaluates the three threshold rules
independently (the issue list has one entry per violated rule, and the
message of each rule appears iff that rule is violated) and `compliant` is true
iff the issue list is empty. -/
theorem check_epa_compliance_rules (outages : List Outage) (availability_percent : ℚ) :
    ((check_epa_compliance outages availability_percent).compliant = true
      ↔ (check_epa_compliance outages availability_percent).issues = [])
    ∧ (check_epa_compliance outages availability_percent).issues.length
        = ((if MAX_OUTAGES_PER_MONTH < outages.length then 1 else 0)
          + (if ∃ o ∈ outages, MAX_OUTAGE_DURATION_MINUTES < o.duration_minutes
              then 1 else 0)
          + (if availability_percent < MIN_AVAILABILITY_PERCENT then 1 else 0))
    ∧ ((∃ n, ComplianceIssue.exceededMaxOutages n
          ∈ (check_epa_compliance outages availability_percent).issues)
        ↔ MAX_OUTAGES_PER_MONTH < outages.length)
    ∧ ((∃ n, ComplianceIssue.longOutages n
          ∈ (check_epa_compliance outages availability_percent).issues)
        ↔ ∃ o ∈ outages, MAX_OUTAGE_DURATION_MINUTES < o.duration_minutes)
    ∧ ((∃ a, ComplianceIssue.lowAvailability a
          ∈ (check_epa_compliance outages availability_percent).issues)
        ↔ availability_percent < MIN_AVAILABILITY_PERCENT) := by
  have hfe : (outages.filter fun o =>
        decide (MAX_OUTAGE_DURATION_MINUTES < o.duration_minutes)).isEmpty = true
      ↔ ¬ ∃ o ∈ outages, MAX_OUTAGE_DURATION_MINUTES < o.duration_minutes := by
    rw [List.isEmpty_iff, List.filter_eq_nil_iff]
    simp
  simp only [check_epa_compliance]
  simp only [hfe]
  by_cases h1 : MAX_OUTAGES_PER_MONTH < outages.length <;>
    by_cases h2 : ∃ o ∈ outages, MAX_OUTAGE_DURATION_MINUTES < o.duration_minutes <;>
    by_cases h3 : availability_percent < MIN_AVAILABILITY_PERCENT <;>
    simp [h1, h2, h3]

/-- Claim C10: all three threshold comparisons are strict, so an analysis
sitting exactly on all three boundaries (10 outages, 60-minute durations,
99.0% availability) is compliant, with no issues. -/
theorem check_epa_compliance_boundary (outages : List Outage)
    (availability_percent : ℚ)
    (hcount : outages.length = MAX_OUTAGES_PER_MONTH)
    (hdur : ∀ o ∈ outages, o.duration_minutes = MAX_OUTAGE_DURATION_MINUTES)
    (hav : availability_percent = MIN_AVAILABILITY_PERCENT) :
    (check_epa_compliance outages availability_percent).compliant = true
    ∧ (check_epa_compliance outages availability_percent).issues = []
    ∧ (check_epa_compliance outages availability_percent).status = ("COMPLIANT") := by
  have h1 : ¬ MAX_OUTAGES_PER_MONTH < outages.length := by
    rw [hcount]
    exact lt_irrefl _
  have h2 : (outages.filter fun o =>
      decide (MAX_OUTAGE_DURATION_MINUTES < o.duration_minutes)) = [] := by
    rw [List.filter_eq_nil_iff]
    intro o ho
    simp [hdur o ho]
  have h3 : ¬ availability_percent < MIN_AVAILABILITY_PERCENT := by
    rw [hav]
    exact lt_irrefl _
  simp [check_epa_compliance, h1, h2, h3]

/-- Witness for C10: ten outages of exactly 60 minutes at exactly 99%. -/
theorem check_epa_compliance_boundary_witness :
    (check_epa_compliance (List.replicate 10 ⟨0, 60, 60, none⟩) 99).compliant = true
    ∧ (check_epa_compliance (List.replicate 10 ⟨0, 60, 60, none⟩) 99).issues = []
    ∧ (check_epa_compliance (List.replicate 10 ⟨0, 60, 60, none⟩) 99).status
        = ("COMPLIANT") :=
  check_epa_compliance_boundary (List.replicate 10 ⟨0, 60, 60, none⟩) 99
    (by decide) (by decide) (by decide)

/-- A table with both required columns, a zero-duration outage pair, and a
zero-length reporting window.  Input for the C6 counterexample. -/
def tblC6 : Table :=
  ⟨["Time", "Message"], [⟨0, "Pilot Inactive"⟩, ⟨0, "Pilot Active"⟩]⟩

/-- The zero-length window used by the C6 counterexample. -/
def monthC6 : MonthData := ⟨0, 0⟩

/-- Counterexample to claim C6: on a zero-length window
(`first_day == last_day`) the analysis does NOT fail with a
`DegenerateWindowError` — it returns a successful result. -/
theorem analyze_data_zero_window_cex :
    monthC6.first_day = monthC6.last_day
    ∧ (analyze_data tblC6 monthC6).isSuccess = true := by
  constructor
  · rfl
  · rfl

/-- Claim C6 (amended): on a zero-length window, the `ZeroDivisionError`
raised inside `calculate_availability` is caught by the handler inside
that same function, which returns `0.0`; the analysis is not aborted and returns a
successful result whose `availability_percent` is the number `0` (so no
NaN/Infinity, but also no fatal error). -/
theorem analyze_data_zero_window (tbl : Table) (month_data : MonthData)
    (htime : ("Time") ∈ tbl.columns) (hmsg : ("Message") ∈ tbl.columns)
    (hzero : month_data.first_day = month_data.last_day) :
    (analyze_data tbl month_data).isSuccess = true
    ∧ availabilityOf (analyze_data tbl month_data) = some 0 := by
  have hcond : ¬ (("Time") ∉ tbl.columns ∨ ("Message") ∉ tbl.columns) := by
    push_neg
    exact ⟨htime, hmsg⟩
  have hz : month_data.last_day - month_data.first_day = 0 := by
    rw [hzero, sub_self]
  simp only [analyze_data, if_neg hcond]
  refine ⟨rfl, ?_⟩
  simp only [availabilityOf, calculate_availability, hz, if_pos]

/-- Witness for the amended C6 on a concrete empty table. -/
theorem analyze_data_zero_window_witness :
    (analyze_data ⟨["Time", "Message"], []⟩ ⟨5, 5⟩).isSuccess = true
    ∧ availabilityOf (analyze_data ⟨["Time", "Message"], []⟩ ⟨5, 5⟩) = some 0 :=
  analyze_data_zero_window ⟨["Time", "Message"], []⟩ ⟨5, 5⟩
    (by decide) (by decide) rfl

/-- The two-event stream whose single outage is closed normally by a
"Pilot Active" event.  Input for the C8 counterexample. -/
def rowsC8 : List Row :=
  [⟨0, "Pilot Inactive"⟩, ⟨10, "Pilot Active"⟩]

/-- Counterexample to claim C8: the normally-closed interval produced from
`rowsC8` does NOT carry an `ongoing` key (modelled as `Option.none`), so not
every returned interval carries a boolean `ongoing` flag. -/
theorem identify_outages_ongoing_cex :
    ¬ ∀ o ∈ identify_outages rowsC8, (o.ongoing).isSome = true := by
  decide

/-- Claim C8 (amended): every interval carries `start`, `stop` and
`duration_minutes`, but the `ongoing` key is present only on the final
artificially-closed interval (with value `true`); intervals closed normally
by a "Pilot Active" event omit the key (the rendering collaborator reads it
with a dict get call defaulting to False, src/report_generator.py line 189). -/
theorem identify_outages_ongoing_key (rows : List Row) :
    (∀ o ∈ identify_outages rows, o.ongoing = none ∨ o.ongoing = some true)
    ∧ ∀ o ∈ (identify_outages rows).dropLast, o.ongoing = none := by
  have hnone := scan_outages_ongoing_none rows
  rcases identify_outages_eq rows with heq | ⟨s, lastRow, _, _, _, heq⟩
  · rw [heq]
    exact ⟨fun o ho => Or.inl (hnone o ho),
      fun o ho => hnone o ((List.dropLast_sublist _).mem ho)⟩
  · rw [heq]
    constructor
    · intro o ho
      rcases List.mem_append.mp ho with ho | ho
      · exact Or.inl (hnone o ho)
      · simp only [List.mem_singleton] at ho
        subst ho
        exact Or.inr rfl
    · intro o ho
      rw [List.dropLast_concat] at ho
      exact hnone o ho

/-- Every member of the column list appears verbatim inside the Python
`repr` join of that list. -/
theorem contains_reprJoin (c : String) (cols : List String) (h : c ∈ cols) :
    ∃ pre post, (pyReprJoin cols).data = pre ++ c.data ++ post := by
  induction cols with
  | nil => cases h
  | cons x xs ih =>
    rcases List.mem_cons.mp h with rfl | hmem
    · cases xs with
      | nil =>
        refine ⟨sq.data, sq.data, ?_⟩
        simp [pyReprJoin, pyStrRepr, String.data_append, List.append_assoc]
      | cons y ys =>
        refine ⟨sq.data, sq.data ++ (", ").data ++ (pyReprJoin (y :: ys)).data, ?_⟩
        simp [pyReprJoin, pyStrRepr, String.data_append, List.append_assoc]
    · cases xs with
      | nil => cases hmem
      | cons y ys =>
        obtain ⟨p, q, hp⟩ := ih hmem
        refine ⟨(pyStrRepr x).data ++ (", ").data ++ p, q, ?_⟩
        simp [pyReprJoin, String.data_append, hp, List.append_assoc]

/-- Claim C9: when a required column is missing, `analyze_data` returns a
`failure` (never a successful summary) whose message names both expected
columns and contains every column name actually found. -/
theorem analyze_data_missing_columns (tbl : Table) (month_data : MonthData)
    (h : ("Time") ∉ tbl.columns ∨ ("Message") ∉ tbl.columns) :
    analyze_data tbl month_data = .failure (requiredColumnsError tbl.columns)
    ∧ strContains (requiredColumnsError tbl.columns) ("Time") = true
    ∧ strContains (requiredColumnsError tbl.columns) ("Message") = true
    ∧ ∀ c ∈ tbl.columns, strContains (requiredColumnsError tbl.columns) c = true := by
  refine ⟨by simp only [analyze_data, if_pos h], ?_, ?_, ?_⟩
  · simp only [strContains, requiredColumnsError, String.data_append]
    exact charsContains_append_right _ _ _ (by decide)
  · simp only [strContains, requiredColumnsError, String.data_append]
    exact charsContains_append_right _ _ _ (by decide)
  · intro c hc
    obtain ⟨p, q, hpq⟩ := contains_reprJoin c tbl.columns hc
    simp only [strContains, requiredColumnsError, pyListRepr, String.data_append, hpq]
    have hinf := charsContains_infix
      ((("Required columns not found. Expected \"Time\" and \"Message\", got: ").data
          ++ ("[").data ++ p))
      c.data (q ++ ("]").data)
    have heq :
        ("Required columns not found. Expected \"Time\" and \"Message\", got: ").data
            ++ ((("[").data ++ (p ++ c.data ++ q)) ++ ("]").data)
          = (("Required columns not found. Expected \"Time\" and \"Message\", got: ").data
              ++ ("[").data ++ p) ++ c.data ++ (q ++ ("]").data) := by
      simp [List.append_assoc]
    rw [heq]
    exact hinf

/-- A table whose `Message` column is missing.  Input for the C9 witness. -/
def tblC9 : Table := ⟨["Time", "Status"], [⟨0, "boot"⟩]⟩

/-- Witness for C9 on `tblC9`. -/
theorem analyze_data_missing_columns_witness :
    analyze_data tblC9 ⟨0, 10⟩ = .failure (requiredColumnsError tblC9.columns)
    ∧ strContains (requiredColumnsError tblC9.columns) ("Time") = true
    ∧ strContains (requiredColumnsError tblC9.columns) ("Message") = true
    ∧ ∀ c ∈ tblC9.columns, strContains (requiredColumnsError tblC9.columns) c = true :=
  analyze_data_missing_columns tblC9 ⟨0, 10⟩ (by decide)

/-- A row carrying neither status indicator leaves the scan state unchanged. -/
theorem stepRow_no_pilot (st : ScanState) (r : Row)
    (h1 : strContains (pyStrip r.message) ("Pilot Inactive") = false)
    (h2 : strContains (pyStrip r.message) ("Pilot Active") = false) :
    stepRow st r = st := by
  simp [stepRow, h1, h2]

theorem foldl_no_pilot : ∀ (rows : List Row) (st : ScanState),
    (∀ r ∈ rows, strContains (pyStrip r.message) ("Pilot Inactive") = false
      ∧ strContains (pyStrip r.message) ("Pilot Active") = false) →
    rows.foldl stepRow st = st
  | [], _, _ => rfl
  | r :: rs, st, h => by
    rw [List.foldl_cons,
      stepRow_no_pilot st r (h r (List.mem_cons_self r rs)).1
        (h r (List.mem_cons_self r rs)).2]
    exact foldl_no_pilot rs st fun x hx => h x (List.mem_cons_of_mem r hx)

/-- With no status indicators in the stream, no outage is identified. -/
theorem identify_outages_no_pilot (rows : List Row)
    (h : ∀ r ∈ rows, strContains (pyStrip r.message) ("Pilot Inactive") = false
      ∧ strContains (pyStrip r.message) ("Pilot Active") = false) :
    identify_outages rows = [] := by
  have hs : scanState rows = initState := foldl_no_pilot rows initState h
  simp [identify_outages, hs, initState]

/-- With no outages and a positive-length window the availability is 100%. -/
theorem calculate_availability_no_outages (df : List Row) (month_data : MonthData)
    (hwin : month_data.first_day < month_data.last_day) :
    calculate_availability df [] month_data = 100 := by
  have hz : month_data.last_day - month_data.first_day ≠ 0 :=
    sub_ne_zero.mpr (ne_of_gt hwin)
  simp only [calculate_availability, List.map_nil, List.sum_nil, if_neg hz,
    sub_zero, div_self hz, one_mul]

/-- Claim C5: when the normalized stream carries no "Pilot Inactive" or
"Pilot Active" message and the window has positive length, the analysis
succeeds with an empty outage list, all five statistics 0, availability
100%, and a compliant verdict. -/
theorem analyze_data_no_pilot_messages (tbl : Table) (month_data : MonthData)
    (htime : ("Time") ∈ tbl.columns) (hmsg : ("Message") ∈ tbl.columns)
    (hwin : month_data.first_day < month_data.last_day)
    (hnp : ∀ r ∈ normalizedRows tbl month_data,
        strContains (pyStrip r.message) ("Pilot Inactive") = false
        ∧ strContains (pyStrip r.message) ("Pilot Active") = false) :
    analyze_data tbl month_data
      = AnalysisResult.success (normalizedRows tbl month_data) []
          { total_outages := 0, total_outage_minutes := 0,
            availability_percent := 100,
            epa_compliance := ("COMPLIANT"),
            compliance_details :=
              { compliant := true, status := ("COMPLIANT"), issues := [] },
            statistics :=
              { mean_duration_minutes := 0, median_duration_minutes := 0,
                max_duration_minutes := 0, min_duration_minutes := 0,
                std_duration_minutes := 0 } } := by
  have hcond : ¬ (("Time") ∉ tbl.columns ∨ ("Message") ∉ tbl.columns) := by
    push_neg
    exact ⟨htime, hmsg⟩
  have hout : identify_outages (normalizedRows tbl month_data) = [] :=
    identify_outages_no_pilot _ hnp
  have hav : calculate_availability (normalizedRows tbl month_data) [] month_data = 100 :=
    calculate_availability_no_outages _ _ hwin
  have hcomp : check_epa_compliance [] 100
      = { compliant := true, status := ("COMPLIANT"), issues := [] } := by
    decide
  simp only [analyze_data, if_neg hcond, hout, hav, hcomp]
  rfl

/-- A two-row table with no pilot status messages.  Input for the C5 witness. -/
def tblC5 : Table := ⟨["Time", "Message"], [⟨5, "boot"⟩, ⟨7, "heartbeat"⟩]⟩

/-- Witness for C5 on `tblC5` with the window `[0, 10]`. -/
theorem analyze_data_no_pilot_messages_witness :
    analyze_data tblC5 ⟨0, 10⟩
      = AnalysisResult.success (normalizedRows tblC5 ⟨0, 10⟩) []
          { total_outages := 0, total_outage_minutes := 0,
            availability_percent := 100,
            epa_compliance := ("COMPLIANT"),
            compliance_details :=
              { compliant := true, status := ("COMPLIANT"), issues := [] },
            statistics :=
              { mean_duration_minutes := 0, median_duration_minutes := 0,
                max_duration_minutes := 0, min_duration_minutes := 0,
                std_duration_minutes := 0 } } :=
  analyze_data_no_pilot_messages tblC5 ⟨0, 10⟩ (by decide) (by decide)
    (by decide) (by decide)

end PilotMonitoring
